import Mathlib

/-!
Verification of the TravelTracker map/selection synchronization layer.

The definitions below are a shallow embedding of the React/D3 application
in `src/App.tsx` and its sibling variants (the four-scope and six-scope
versions of the same component).  Regions are modelled by their display
names (the only attribute the selection logic reads), the Selection Store
by a `Finset String` (mirroring the JavaScript `Set<string>`), and the
event handlers by pure state-transition functions.
-/

namespace TravelTracker

/-- Geographic scope of the two-scope variant (`src/App.tsx`, line 10). -/
inductive Scope where
  | world
  | usa
deriving DecidableEq, Repr

/-- Geographic scope of the four-scope variant (`part_001`, line 11). -/
inductive ScopeV2 where
  | world
  | usa
  | europe
  | china
deriving DecidableEq, Repr

/-- Membership flip of the Selection Store performed by
`handleLocationToggle` (`src/App.tsx`, lines 301-310): copy the set,
delete `name` if present, insert it otherwise. -/
def toggleLocation (name : String) (store : Finset String) : Finset String :=
  if name ∈ store then store.erase name else insert name store

/-- Bulk replacement performed by the select-all branch of the
select-all button (`src/App.tsx`, line 984): the store becomes
`new Set(allLocationNames)`, i.e. exactly the provided name collection. -/
def selectAll (names : List String) (_store : Finset String) : Finset String :=
  names.toFinset

/-- Bulk clearing performed by the deselect-all branch of the select-all
button (`src/App.tsx`, line 964): the store becomes `new Set()`. -/
def deselectAll (_store : Finset String) : Finset String :=
  (∅ : Finset String)

/-- Combined behaviour of the select-all button (`src/App.tsx`,
lines 957-1003): it deselects everything when the current selection size
equals the number of (truthy-named) locations, and selects everything
otherwise.  `names` is `currentFeatures.map(d => d.properties.name)`. -/
def selectAllButton (names : List String) (store : Finset String) : Finset String :=
  let allNames := names.filter (fun n => n != "")
  if store.card = allNames.length then deselectAll store else selectAll allNames store

/-- Application state of the two-scope variant, restricted to the fields
the Selection Store logic reads (`src/App.tsx`, lines 34-35). -/
structure AppState where
  currentScope : Scope
  activeLocations : Finset String
deriving DecidableEq

/-- State change performed by `handleScopeSelection` (`src/App.tsx`,
lines 390-405): a no-op when the requested scope is already active,
otherwise the Selection Store is recreated empty and the scope updated. -/
def handleScopeSelection (scope : Scope) (st : AppState) : AppState :=
  if scope = st.currentScope then st
  else { currentScope := scope, activeLocations := (∅ : Finset String) }

/-- DOM identifier normalization used by `handleLocationToggle` and
`renderMap` (`src/App.tsx`, lines 278 and 366):
`name.replace(/\s/g, '-').replace(/[^a-zA-Z0-9-]/g, '')`. -/
def jsWhitespace (c : Char) : Bool :=
  c == ' ' || c == '\t' || c == '\n' || c == '\r' || c == '\x0b' || c == '\x0c'

/-- Character class `[a-zA-Z0-9-]` kept by the second `replace` of the
normalization at `src/App.tsx`, line 278. -/
def keptByNormalize (c : Char) : Bool :=
  ('a' ≤ c && c ≤ 'z') || ('A' ≤ c && c ≤ 'Z') || ('0' ≤ c && c ≤ '9') || c == '-'

/-- Name normalization of `src/App.tsx`, line 278: every whitespace
character becomes a hyphen, then every character outside `[a-zA-Z0-9-]`
is deleted. -/
def normalizeName (s : String) : String :=
  String.mk (((s.toList).map (fun c => if jsWhitespace c then '-' else c)).filter keptByNormalize)

/-- C7: toggling a region name twice in succession restores the
Selection Store to its prior membership: `toggleLocation` flips
membership of `name`, so the double application is the identity. -/
theorem toggle_toggle_id (name : String) (store : Finset String) :
    toggleLocation name (toggleLocation name store) = store := by
  unfold toggleLocation
  by_cases h : name ∈ store
  · simp only [h, if_pos]
    have hne : name ∉ store.erase name := Finset.not_mem_erase name store
    simp only [hne, if_neg, if_false]
    exact Finset.insert_erase h
  · simp only [h, if_neg, if_false]
    have hmem : name ∈ insert name store := Finset.mem_insert_self name store
    simp only [hmem, if_pos]
    exact Finset.erase_insert h

/-- C6: `selectAll names` replaces the store with exactly the provided
name collection (membership-wise), is idempotent, and composing it with
`deselectAll` empties the store, whatever the prior state was. -/
theorem selectAll_exact_idem_deselect (names : List String) (prev : Finset String) :
    (∀ n : String, n ∈ selectAll names prev ↔ n ∈ names) ∧
    selectAll names (selectAll names prev) = selectAll names prev ∧
    deselectAll (selectAll names prev) = (∅ : Finset String) := by
  refine ⟨fun n => ?_, rfl, rfl⟩
  simp [selectAll, List.mem_toFinset]

/-- C3: switching to a scope different from the current one always
leaves the Selection Store empty, regardless of its prior contents. -/
theorem scope_switch_clears_selection (scope : Scope) (st : AppState)
    (h : scope ≠ st.currentScope) :
    (handleScopeSelection scope st).activeLocations = (∅ : Finset String) := by
  unfold handleScopeSelection
  simp [h]

/-- Witness for C3: switching from the world scope (with two selected
countries) to the USA scope empties the store. -/
theorem scope_switch_clears_selection_witness :
    (Scope.usa ≠ (AppState.mk Scope.world {"France", "Brazil"}).currentScope) ∧
    (handleScopeSelection Scope.usa (AppState.mk Scope.world {"France", "Brazil"})).activeLocations
      = (∅ : Finset String) := by
  refine ⟨by decide, ?_⟩
  exact scope_switch_clears_selection Scope.usa (AppState.mk Scope.world {"France", "Brazil"}) (by decide)

/-- Public Selection Store operations of the two-scope variant: a toggle
of an arbitrary string (`handleLocationToggle`), a press of the
select-all button, and a scope switch (`handleScopeSelection`). -/
inductive StoreOp where
  | toggle (name : String)
  | selectAllBtn
  | switchScope (scope : Scope)

/-- Effect of one Selection Store operation on the application state,
with `cols` giving the (already loaded) name collection of each scope. -/
def applyOp (cols : Scope → List String) (st : AppState) : StoreOp → AppState
  | StoreOp.toggle name =>
      { st with activeLocations := toggleLocation name st.activeLocations }
  | StoreOp.selectAllBtn =>
      { st with activeLocations := selectAllButton (cols st.currentScope) st.activeLocations }
  | StoreOp.switchScope scope => handleScopeSelection scope st

/-- Sequential execution of Selection Store operations. -/
def runOps (cols : Scope → List String) (st : AppState) : List StoreOp → AppState
  | [] => st
  | op :: rest => runOps cols (applyOp cols st op) rest

/-- Invariant claimed by the spec: every name in the Selection Store is
the name of a region present in the active scope's collection. -/
def storeInScope (cols : Scope → List String) (st : AppState) : Prop :=
  ∀ n ∈ st.activeLocations, n ∈ cols st.currentScope

instance (cols : Scope → List String) (st : AppState) : Decidable (storeInScope cols st) := by
  unfold storeInScope
  infer_instance

/-- Operation sequences in which every toggle uses a name present in the
collection of the scope active at the moment of the toggle. -/
inductive ValidOps (cols : Scope → List String) : AppState → List StoreOp → Prop where
  | nil (st : AppState) : ValidOps cols st []
  | toggle (st : AppState) (name : String) (rest : List StoreOp)
      (hmem : name ∈ cols st.currentScope)
      (h : ValidOps cols (applyOp cols st (StoreOp.toggle name)) rest) :
      ValidOps cols st (StoreOp.toggle name :: rest)
  | selectAllBtn (st : AppState) (rest : List StoreOp)
      (h : ValidOps cols (applyOp cols st StoreOp.selectAllBtn) rest) :
      ValidOps cols st (StoreOp.selectAllBtn :: rest)
  | switchScope (st : AppState) (scope : Scope) (rest : List StoreOp)
      (h : ValidOps cols (applyOp cols st (StoreOp.switchScope scope)) rest) :
      ValidOps cols st (StoreOp.switchScope scope :: rest)

/-- Toggling a name of the active collection preserves the invariant. -/
theorem storeInScope_toggle (cols : Scope → List String) (st : AppState)
    (name : String) (hmem : name ∈ cols st.currentScope)
    (hst : storeInScope cols st) :
    storeInScope cols (applyOp cols st (StoreOp.toggle name)) := by
  intro n hn
  simp only [applyOp, toggleLocation] at hn
  by_cases hmem' : name ∈ st.activeLocations
  · simp only [hmem', if_pos] at hn
    exact hst n (Finset.mem_of_mem_erase hn)
  · simp only [hmem', if_neg, if_false] at hn
    rcases Finset.mem_insert.mp hn with h | h
    · exact h ▸ hmem
    · exact hst n h

/-- The select-all button preserves the invariant: it yields either the
empty store or the store of all (truthy) names of the active collection. -/
theorem storeInScope_selectAllBtn (cols : Scope → List String) (st : AppState) :
    storeInScope cols (applyOp cols st StoreOp.selectAllBtn) := by
  intro n hn
  simp only [applyOp, selectAllButton, deselectAll, selectAll] at hn
  split at hn
  · exact absurd hn (Finset.not_mem_empty n)
  · have := List.mem_toFinset.mp hn
    exact (List.mem_filter.mp this).1

/-- A scope switch preserves the invariant: either it is a no-op or the
store is recreated empty. -/
theorem storeInScope_switchScope (cols : Scope → List String) (st : AppState)
    (scope : Scope) (hst : storeInScope cols st) :
    storeInScope cols (applyOp cols st (StoreOp.switchScope scope)) := by
  simp only [applyOp, handleScopeSelection]
  split
  · exact hst
  · intro n hn
    exact absurd hn (Finset.not_mem_empty n)

/-- C2 (amended): after any sequence of Selection Store operations whose
toggles only use names of the then-active collection, every name in the
Selection Store corresponds to a region of the active scope's
collection.  (The unamended claim fails: toggling an arbitrary string
inserts it into the store unchecked, see the counterexample.) -/
theorem valid_ops_preserve_scope_invariant (cols : Scope → List String)
    (st : AppState) (ops : List StoreOp) (hval : ValidOps cols st ops)
    (hst : storeInScope cols st) :
    storeInScope cols (runOps cols st ops) := by
  induction hval with
  | nil st => exact hst
  | toggle st name rest hmem _ ih =>
      exact ih (storeInScope_toggle cols st name hmem hst)
  | selectAllBtn st rest _ ih =>
      exact ih (storeInScope_selectAllBtn cols st)
  | switchScope st scope rest _ ih =>
      exact ih (storeInScope_switchScope cols st scope hst)

/-- Demonstration collections used for concrete runs. -/
def colsDemo : Scope → List String
  | Scope.world => ["France", "Brazil"]
  | Scope.usa => ["Texas", "Ohio"]

/-- Witness for the amended C2: a concrete valid run (toggle a world
country, press select-all, switch to the USA scope) ends in a state
satisfying the invariant. -/
theorem valid_ops_preserve_scope_invariant_witness :
    storeInScope colsDemo
      (runOps colsDemo (AppState.mk Scope.world (∅ : Finset String))
        [StoreOp.toggle "France", StoreOp.selectAllBtn, StoreOp.switchScope Scope.usa]) :=
  valid_ops_preserve_scope_invariant colsDemo _ _
    (ValidOps.toggle _ _ _ (by decide)
      (ValidOps.selectAllBtn _ _
        (ValidOps.switchScope _ _ _ (ValidOps.nil _))))
    (fun n hn => absurd hn (Finset.not_mem_empty n))

/-- Counterexample to C2 as stated: toggling the arbitrary string
"Zanadu", which names no region of the active world collection, leaves
the store containing a name with no corresponding region. -/
theorem toggle_arbitrary_name_breaks_invariant :
    ¬ storeInScope colsDemo
      (runOps colsDemo (AppState.mk Scope.world (∅ : Finset String))
        [StoreOp.toggle "Zanadu"]) := by
  decide

/-- Lower-casing used by the search filter (`src/App.tsx`, line 872):
`name.toLowerCase()`, modelled character-wise (ASCII letters). -/
def jsToLower (s : String) : String :=
  String.mk (s.toList.map Char.toLower)

/-- Check that `pat` is an initial segment of `s` (the work horse of the
substring test behind JavaScript `String.prototype.includes`). -/
def leadMatches : List Char → List Char → Bool
  | [], _ => true
  | _ :: _, [] => false
  | a :: as, b :: bs => a == b && leadMatches as bs

/-- Check that `pat` occurs contiguously inside `s`, the semantics of
JavaScript `String.prototype.includes`. -/
def containsSeq (pat : List Char) : List Char → Bool
  | [] => leadMatches pat []
  | c :: rest => leadMatches pat (c :: rest) || containsSeq pat rest

/-- Model of `s.includes(q)` at `src/App.tsx`, line 872. -/
def jsIncludes (s q : String) : Bool :=
  containsSeq q.toList s.toList

/-- Search filter of the sidebar (`src/App.tsx`, lines 869-873):
map features to names, drop falsy names, keep names whose lower-casing
contains the lower-cased query, and sort. -/
def filteredLocations (q : String) (names : List String) : List String :=
  ((names.filter (fun n => n != "")).filter
      (fun n => jsIncludes (jsToLower n) (jsToLower q))).mergeSort
    (fun a b => decide (a ≤ b))

/-- Characterization of `leadMatches`: it holds exactly when the string
extends the pattern. -/
theorem leadMatches_iff : ∀ pat s : List Char,
    leadMatches pat s = true ↔ ∃ t, s = pat ++ t
  | [], s => by simp [leadMatches]
  | a :: as, [] => by simp [leadMatches]
  | a :: as, b :: bs => by
      simp only [leadMatches, Bool.and_eq_true, beq_iff_eq]
      constructor
      · rintro ⟨rfl, h⟩
        obtain ⟨t, rfl⟩ := (leadMatches_iff as bs).mp h
        exact ⟨t, rfl⟩
      · rintro ⟨t, ht⟩
        simp only [List.cons_append, List.cons.injEq] at ht
        obtain ⟨rfl, rfl⟩ := ht
        exact ⟨rfl, (leadMatches_iff as (as ++ t)).mpr ⟨t, rfl⟩⟩

/-- Characterization of `containsSeq`: it holds exactly when the pattern
occurs contiguously inside the string. -/
theorem containsSeq_iff : ∀ pat s : List Char,
    containsSeq pat s = true ↔ ∃ p t, s = p ++ pat ++ t
  | pat, [] => by
      simp only [containsSeq]
      rw [leadMatches_iff]
      constructor
      · rintro ⟨t, ht⟩
        exact ⟨[], t, by simpa using ht⟩
      · rintro ⟨p, t, ht⟩
        simp only [List.append_assoc, List.nil_eq, List.append_eq_nil] at ht
        exact ⟨t, by simp [ht.1, ht.2.1, ht.2.2]⟩
  | pat, c :: rest => by
      simp only [containsSeq, Bool.or_eq_true]
      rw [leadMatches_iff, containsSeq_iff pat rest]
      constructor
      · rintro (⟨t, ht⟩ | ⟨p, t, ht⟩)
        · exact ⟨[], t, by simpa using ht⟩
        · exact ⟨c :: p, t, by simp [ht]⟩
      · rintro ⟨p, t, ht⟩
        cases p with
        | nil => exact Or.inl ⟨t, by simpa using ht⟩
        | cons x xs =>
            simp only [List.cons_append, List.cons.injEq, List.append_assoc] at ht
            exact Or.inr ⟨xs, t, by simp [ht.2]⟩

/-- The empty pattern occurs in every string. -/
theorem containsSeq_nil (s : List Char) : containsSeq [] s = true := by
  cases s <;> simp [containsSeq, leadMatches]

/-- C5: for every query `q` and every collection without blank names,
the displayed list contains exactly the names whose lower-casing
contains the lower-cased query as a contiguous substring, it is sorted,
and the empty query displays the whole collection (as a permutation of
it, i.e. the full name list, sorted). -/
theorem filteredLocations_spec (q : String) (names : List String)
    (hname : "" ∉ names) :
    (∀ n : String, n ∈ filteredLocations q names ↔
        n ∈ names ∧ ∃ p t, (jsToLower n).toList = p ++ (jsToLower q).toList ++ t) ∧
    List.Sorted (fun a b : String => a ≤ b) (filteredLocations q names) ∧
    (q = "" → (filteredLocations q names).Perm names) := by
  refine ⟨fun n => ?_, ?_, ?_⟩
  · rw [filteredLocations,
      (List.mergeSort_perm _ (fun a b => decide (a ≤ b))).mem_iff,
      List.mem_filter, List.mem_filter]
    constructor
    · rintro ⟨⟨hmem, -⟩, hinc⟩
      exact ⟨hmem, (containsSeq_iff _ _).mp hinc⟩
    · rintro ⟨hmem, hsub⟩
      refine ⟨⟨hmem, ?_⟩, (containsSeq_iff _ _).mpr hsub⟩
      exact bne_iff_ne.mpr (fun e => hname (e ▸ hmem))
  · have htrans : ∀ a b c : String, decide (a ≤ b) = true → decide (b ≤ c) = true →
        decide (a ≤ c) = true := fun a b c h1 h2 =>
      decide_eq_true (le_trans (of_decide_eq_true h1) (of_decide_eq_true h2))
    have htot : ∀ a b : String, (decide (a ≤ b) || decide (b ≤ a)) = true := by
      intro a b
      rcases le_total a b with h | h <;> simp [h]
    have hs := List.sorted_mergeSort htrans htot
      ((names.filter (fun n => n != "")).filter
        (fun n => jsIncludes (jsToLower n) (jsToLower q)))
    exact hs.imp (fun h => of_decide_eq_true h)
  · rintro rfl
    have hall : (names.filter (fun n => n != "")) = names :=
      List.filter_eq_self.mpr (fun a ha => bne_iff_ne.mpr (fun e => hname (e ▸ ha)))
    have hpred : ∀ a : String, jsIncludes (jsToLower a) (jsToLower "") = true := by
      intro a
      show containsSeq (jsToLower "").toList (jsToLower a).toList = true
      have h0 : (jsToLower "").toList = [] := by decide
      rw [h0]
      exact containsSeq_nil _
    have hone : ((names.filter (fun n => n != "")).filter
        (fun n => jsIncludes (jsToLower n) (jsToLower ""))) = names := by
      rw [List.filter_eq_self.mpr (fun a _ => hpred a), hall]
    exact (List.mergeSort_perm _ _).trans (List.Perm.of_eq hone)

/-- Witness for C5: searching for "an" in a three-country collection. -/
theorem filteredLocations_spec_witness :
    ("" ∉ (["France", "Germany", "Japan"] : List String)) ∧
    ("Japan" ∈ filteredLocations "an" ["France", "Germany", "Japan"] ∧
      ("Germany" ∈ filteredLocations "an" ["France", "Germany", "Japan"] ↔
        ∃ p t, (jsToLower "Germany").toList = p ++ (jsToLower "an").toList ++ t)) := by
  have h := filteredLocations_spec "an" ["France", "Germany", "Japan"] (by decide)
  refine ⟨by decide, ?_, ?_⟩
  · exact (h.1 "Japan").mpr ⟨by decide, by
      exact ⟨['j', 'a', 'p'], [], by decide⟩⟩
  · constructor
    · intro hm
      exact ((h.1 "Germany").mp hm).2
    · intro he
      exact (h.1 "Germany").mpr ⟨by decide, he⟩

/-- Map transform: a uniform scale plus a 2-D translation, mirroring the
d3 zoom transform built at `src/App.tsx`, line 204. -/
structure FitTransform where
  k : ℚ
  tx : ℚ
  ty : ℚ
deriving DecidableEq, Repr

/-- Model of `d3.zoomIdentity` (scale 1, no translation). -/
def zoomIdentityT : FitTransform :=
  { k := 1, tx := 0, ty := 0 }

/-- Fit computation of `updateSvgDimensionsAndFit` (`src/App.tsx`,
lines 193-204): given the projected bounds of the region collection
(`none` models the non-finite bounds the code tests for at line 195),
either fall back to the identity transform or scale by the minimum of
the width and height ratios and centre the bounds. -/
def computeFitTransform (w h : ℚ) (bounds : Option ((ℚ × ℚ) × (ℚ × ℚ))) : FitTransform :=
  match bounds with
  | none => zoomIdentityT
  | some ((x0, y0), (x1, y1)) =>
      let scale := min (w / (x1 - x0)) (h / (y1 - y0))
      { k := scale
        tx := (w - scale * (x0 + x1)) / 2
        ty := (h - scale * (y0 + y1)) / 2 }

/-- C4: for a viewport of positive width and height, finite bounds give
scale `min(w/(x1-x0), h/(y1-y0))` and the centring translation — the
midpoint of the bounds is mapped to the viewport centre — while
non-finite bounds give exactly the identity transform (so no NaN and no
error can arise). -/
theorem fitTransform_spec (w h x0 y0 x1 y1 : ℚ) (hw : 0 < w) (hh : 0 < h) :
    (computeFitTransform w h (some ((x0, y0), (x1, y1))) =
      { k := min (w / (x1 - x0)) (h / (y1 - y0))
        tx := (w - min (w / (x1 - x0)) (h / (y1 - y0)) * (x0 + x1)) / 2
        ty := (h - min (w / (x1 - x0)) (h / (y1 - y0)) * (y0 + y1)) / 2 }) ∧
    ((computeFitTransform w h (some ((x0, y0), (x1, y1)))).k * ((x0 + x1) / 2)
        + (computeFitTransform w h (some ((x0, y0), (x1, y1)))).tx = w / 2 ∧
      (computeFitTransform w h (some ((x0, y0), (x1, y1)))).k * ((y0 + y1) / 2)
        + (computeFitTransform w h (some ((x0, y0), (x1, y1)))).ty = h / 2) ∧
    computeFitTransform w h none = zoomIdentityT := by
  refine ⟨rfl, ⟨?_, ?_⟩, rfl⟩
  · show min (w / (x1 - x0)) (h / (y1 - y0)) * ((x0 + x1) / 2)
      + (w - min (w / (x1 - x0)) (h / (y1 - y0)) * (x0 + x1)) / 2 = w / 2
    ring
  · show min (w / (x1 - x0)) (h / (y1 - y0)) * ((y0 + y1) / 2)
      + (h - min (w / (x1 - x0)) (h / (y1 - y0)) * (y0 + y1)) / 2 = h / 2
    ring

/-- Witness for C4: a 2×1 viewport with unit-square bounds. -/
theorem fitTransform_spec_witness :
    (0 : ℚ) < 2 ∧ (0 : ℚ) < 1 ∧
    ((computeFitTransform 2 1 (some ((0, 0), (1, 1)))).k * ((0 + 1) / 2)
        + (computeFitTransform 2 1 (some ((0, 0), (1, 1)))).tx = 2 / 2) ∧
    computeFitTransform 2 1 none = zoomIdentityT :=
  ⟨by norm_num, by norm_num,
    ((fitTransform_spec 2 1 0 0 1 1 (by norm_num) (by norm_num)).2.1).1,
    (fitTransform_spec 2 1 0 0 1 1 (by norm_num) (by norm_num)).2.2⟩

/-- JavaScript truthiness of a possibly missing string property. -/
def jsTruthy (s : Option String) : Bool :=
  match s with
  | some t => t != ""
  | none => false

/-- List of the 50 US states used to filter the TopoJSON features
(`src/App.tsx`, lines 129-138). -/
def usStates : List String :=
  ["Alabama", "Alaska", "Arizona", "Arkansas", "California", "Colorado", "Connecticut",
   "Delaware", "Florida", "Georgia", "Hawaii", "Idaho", "Illinois", "Indiana", "Iowa",
   "Kansas", "Kentucky", "Louisiana", "Maine", "Maryland", "Massachusetts", "Michigan",
   "Minnesota", "Mississippi", "Missouri", "Montana", "Nebraska", "Nevada", "New Hampshire",
   "New Jersey", "New Mexico", "New York", "North Carolina", "North Dakota", "Ohio",
   "Oklahoma", "Oregon", "Pennsylvania", "Rhode Island", "South Carolina", "South Dakota",
   "Tennessee", "Texas", "Utah", "Vermont", "Virginia", "Washington", "West Virginia",
   "Wisconsin", "Wyoming"]

/-- Result of running one data loader: the value passed to the feature
setter (`none` when the setter is not called at all), the user-visible
notifications it emits, and whether an exception escapes it. -/
structure LoadOutcome where
  features : Option (List String)
  notifs : List String
  threw : Bool
deriving DecidableEq, Repr

/-- Feature filter of `loadWorldData` (`src/App.tsx`, lines 105-106):
keep features with a truthy name other than "Antarctica".  A raw feature
is modelled by its (possibly missing) name property. -/
def processWorldFeatures (raws : List (Option String)) : List String :=
  raws.filterMap (fun o =>
    match o with
    | some n => if n != "" && n != "Antarctica" then some n else none
    | none => none)

/-- Model of `loadWorldData` (`src/App.tsx`, lines 101-114): `none`
models any failure of the fetch/parse (network error, malformed
document, undefined result).  On failure the loader logs to the console
and rethrows — it shows no notification and leaves the setter uncalled. -/
def loadWorldData (fetched : Option (List (Option String))) : LoadOutcome :=
  match fetched with
  | none => { features := none, notifs := [], threw := true }
  | some raws => { features := some (processWorldFeatures raws), notifs := [], threw := false }

/-- Model of the `initialize` routine of the mount effect
(`src/App.tsx`, lines 667-707): it awaits `loadWorldData` inside a
`try`/`catch` that logs any error, so no error escapes it. -/
def initialLoad (fetched : Option (List (Option String))) : LoadOutcome :=
  { loadWorldData fetched with threw := false }

/-- Feature filter of `loadUSAData` (`src/App.tsx`, lines 141-144):
keep features whose truthy name is one of the 50 states. -/
def processUSAFeatures (raws : List (Option String)) : List String :=
  raws.filterMap (fun o =>
    match o with
    | some n => if n != "" && usStates.contains n then some n else none
    | none => none)

/-- Model of `loadUSAData` (`src/App.tsx`, lines 117-153): an early
return when the collection is already cached; on failure a notification
is shown, the collection is set empty, and nothing is rethrown. -/
def loadUSAData (currentUS : List String) (fetched : Option (List (Option String))) :
    LoadOutcome :=
  if currentUS.length > 0 then { features := none, notifs := [], threw := false }
  else
    match fetched with
    | none =>
        { features := some []
          notifs := ["Failed to load US states map data. Check the console."]
          threw := false }
    | some raws => { features := some (processUSAFeatures raws), notifs := [], threw := false }

/-- Raw Europe TopoJSON feature (`part_001`, lines 237-253): presence of
the properties/geometry objects and the two name properties. -/
structure EuropeRaw where
  hasProps : Bool
  hasGeom : Bool
  name : Option String
  NAME : Option String
deriving DecidableEq, Repr

/-- Name resolution of the Europe loader (`part_001`, lines 243-253):
use `name` when truthy, fall back to `NAME`, then to "Unknown". -/
def resolveEuropeName (nm NM : Option String) : String :=
  if jsTruthy nm then nm.getD ""
  else if jsTruthy NM then NM.getD ""
  else "Unknown"

/-- Feature processing of `loadEuropeData` (`part_001`, lines 237-253). -/
def processEuropeFeatures (raws : List EuropeRaw) : List String :=
  (raws.filter (fun f => f.hasProps && f.hasGeom)).map
    (fun f => resolveEuropeName f.name f.NAME)

/-- Model of `loadEuropeData` (`part_001`, lines 217-267): cached early
return; on failure a notification, an empty collection and no rethrow. -/
def loadEuropeData (currentEurope : List String) (fetched : Option (List EuropeRaw)) :
    LoadOutcome :=
  if currentEurope.length > 0 then { features := none, notifs := [], threw := false }
  else
    match fetched with
    | none =>
        { features := some []
          notifs := ["Failed to load Europe map data. Check the console."]
          threw := false }
    | some raws => { features := some (processEuropeFeatures raws), notifs := [], threw := false }

/-- Raw China GeoJSON feature (`part_001`, lines 281-297). -/
structure ChinaRaw where
  name : Option String
  hasGeom : Bool
  isGeomCollection : Bool
deriving DecidableEq, Repr

/-- Feature processing of `loadChinaData` (`part_001`, lines 281-297):
keep features with a truthy name and a geometry that is not a
GeometryCollection. -/
def processChinaFeatures (raws : List ChinaRaw) : List String :=
  (raws.filter (fun f => jsTruthy f.name && f.hasGeom && !f.isGeomCollection)).map
    (fun f => f.name.getD "")

/-- Model of `loadChinaData` (`part_001`, lines 270-311). -/
def loadChinaData (currentChina : List String) (fetched : Option (List ChinaRaw)) :
    LoadOutcome :=
  if currentChina.length > 0 then { features := none, notifs := [], threw := false }
  else
    match fetched with
    | none =>
        { features := some []
          notifs := ["Failed to load China provinces map data. Check the console."]
          threw := false }
    | some raws => { features := some (processChinaFeatures raws), notifs := [], threw := false }

/-- Application state of the four-scope variant (`part_001`,
lines 37-45), restricted to the fields the claims read.  Notifications
are collected most-recent-first, as `container.prepend` does. -/
structure AppV2State where
  currentScope : ScopeV2
  activeLocations : Finset String
  worldFeatures : List String
  usFeatures : List String
  europeFeatures : List String
  chinaFeatures : List String
  notifs : List String
  isLoading : Bool
deriving DecidableEq

/-- Active collection of the four-scope variant (`part_001`,
lines 60-64). -/
def activeFeaturesV2 (st : AppV2State) : List String :=
  match st.currentScope with
  | ScopeV2.world => st.worldFeatures
  | ScopeV2.usa => st.usFeatures
  | ScopeV2.europe => st.europeFeatures
  | ScopeV2.china => st.chinaFeatures

/-- Rounding of `x.toFixed(1)` expressed in tenths: the displayed string
"d.t" corresponds to the integer `10*d + t`. -/
def toFixedTenths (q : ℚ) : ℤ :=
  ⌊q * 10 + 1 / 2⌋

/-- Denominator of the displayed percentage in the four-scope variant
(`part_001`, lines 91-93): the world count for the world scope and the
US state count for EVERY other scope. -/
def totalReferenceV2 (st : AppV2State) : ℕ :=
  if st.currentScope = ScopeV2.world then st.worldFeatures.length else st.usFeatures.length

/-- Displayed percentage of the four-scope variant (`part_001`,
lines 94-96), in tenths: `'0.0'` is modelled by `0`. -/
def percentageTenthsV2 (st : AppV2State) : ℤ :=
  if 0 < totalReferenceV2 st then
    toFixedTenths ((st.activeLocations.card : ℚ) / (totalReferenceV2 st : ℚ) * 100)
  else 0

/-- Modelled from the spec: "The displayed percentage equals
`round(selectionCount / totalRegionsInScope * 100, 1 decimal)`, and is
`0.0` when `totalRegionsInScope == 0`", where `totalRegionsInScope` is
the number of regions in the active scope's collection. -/
def specDisplayedTenths (st : AppV2State) : ℤ :=
  if (activeFeaturesV2 st).length = 0 then 0
  else toFixedTenths ((st.activeLocations.card : ℚ) / ((activeFeaturesV2 st).length : ℚ) * 100)

/-- Synchronous half of `handleScopeSelection` (`part_001`,
lines 508-515): a no-op (`none`) for the already-active scope, otherwise
the Selection Store is cleared and loading starts. -/
def startScopeSelection (target : ScopeV2) (st : AppV2State) : Option AppV2State :=
  if target = st.currentScope then none
  else some { st with activeLocations := (∅ : Finset String), isLoading := true }

/-- Tail of `handleScopeSelection` (`part_001`, lines 526-529), run
after the awaited loader resolves: loading ends and the scope is set to
the originally requested target, with no comparison against the scope
that is active by then. -/
def finishScopeSelection (target : ScopeV2) (st : AppV2State) : AppV2State :=
  { st with isLoading := false, currentScope := target }

/-- Commit step of the USA loader inside a scope switch: integrate its
outcome into the state (`part_001`, lines 178-214). -/
def commitUSALoad (fetched : Option (List (Option String))) (st : AppV2State) : AppV2State :=
  let r := loadUSAData st.usFeatures fetched
  { st with usFeatures := r.features.getD st.usFeatures, notifs := r.notifs ++ st.notifs }

/-- Commit step of the Europe loader inside a scope switch
(`part_001`, lines 217-267). -/
def commitEuropeLoad (fetched : Option (List EuropeRaw)) (st : AppV2State) : AppV2State :=
  let r := loadEuropeData st.europeFeatures fetched
  { st with europeFeatures := r.features.getD st.europeFeatures, notifs := r.notifs ++ st.notifs }

/-- Commit step of the China loader inside a scope switch
(`part_001`, lines 270-311). -/
def commitChinaLoad (fetched : Option (List ChinaRaw)) (st : AppV2State) : AppV2State :=
  let r := loadChinaData st.chinaFeatures fetched
  { st with chinaFeatures := r.features.getD st.chinaFeatures, notifs := r.notifs ++ st.notifs }

/-- Resumption of a pending switch to the USA scope once its fetch
settles (`part_001`, lines 517-529). -/
def resumeUSASwitch (fetched : Option (List (Option String))) (st : AppV2State) : AppV2State :=
  finishScopeSelection ScopeV2.usa (commitUSALoad fetched st)

/-- Resumption of a pending switch to the Europe scope once its fetch
settles (`part_001`, lines 517-529). -/
def resumeEuropeSwitch (fetched : Option (List EuropeRaw)) (st : AppV2State) : AppV2State :=
  finishScopeSelection ScopeV2.europe (commitEuropeLoad fetched st)

/-- Resumption of a pending switch to the China scope once its fetch
settles (`part_001`, lines 517-529). -/
def resumeChinaSwitch (fetched : Option (List ChinaRaw)) (st : AppV2State) : AppV2State :=
  finishScopeSelection ScopeV2.china (commitChinaLoad fetched st)

/-- Demonstration world collection for concrete runs of the four-scope
variant. -/
def demoWorldNames : List String :=
  ["France", "Brazil"]

/-- Initial state of the four-scope variant after the world data has
loaded: world scope active, nothing selected, only the world collection
populated. -/
def initialV2State : AppV2State :=
  { currentScope := ScopeV2.world
    activeLocations := (∅ : Finset String)
    worldFeatures := demoWorldNames
    usFeatures := []
    europeFeatures := []
    chinaFeatures := []
    notifs := []
    isLoading := false }

/-- Demonstration Europe collection of ten countries. -/
def europeTen : List String :=
  ["Austria", "Belgium", "Croatia", "Denmark", "Estonia",
   "Finland", "France", "Germany", "Greece", "Hungary"]

/-- Four-scope state on the Europe scope with ten Europe regions loaded,
three of them selected, and the USA collection never loaded. -/
def europeSelectedState : AppV2State :=
  { currentScope := ScopeV2.europe
    activeLocations := {"France", "Germany", "Greece"}
    worldFeatures := demoWorldNames
    usFeatures := []
    europeFeatures := europeTen
    chinaFeatures := []
    notifs := []
    isLoading := false }

/-- C1: on the Europe scope of the four-scope variant the displayed
percentage divides by the US state count, not by the Europe collection
size — with 3 of 10 Europe regions selected and the USA collection never
loaded, the code displays "0.0" while the specified formula gives
"30.0". -/
theorem percentage_wrong_denominator :
    percentageTenthsV2 europeSelectedState = 0 ∧
    specDisplayedTenths europeSelectedState = 300 ∧
    percentageTenthsV2 europeSelectedState ≠ specDisplayedTenths europeSelectedState := by
  have h0 : percentageTenthsV2 europeSelectedState = 0 := by decide
  have h300 : specDisplayedTenths europeSelectedState = 300 := by
    have hcard : (europeSelectedState.activeLocations.card : ℚ) = 3 := by
      have h3 : europeSelectedState.activeLocations.card = 3 := by decide
      rw [h3]
      norm_num
    have hlen : ((activeFeaturesV2 europeSelectedState).length : ℚ) = 10 := by
      norm_num [activeFeaturesV2, europeSelectedState, europeTen]
    unfold specDisplayedTenths
    rw [if_neg (by decide), hcard, hlen]
    unfold toFixedTenths
    norm_num
  refine ⟨h0, h300, ?_⟩
  rw [h0, h300]
  norm_num

/-- C8 (counterexample to the claim as stated): a failed world-data load
shows NO user-visible notification and the error escapes
`loadWorldData` (it is rethrown after being logged). -/
theorem world_load_failure_silent :
    (loadWorldData none).notifs = [] ∧ (loadWorldData none).threw = true := by
  decide

/-- C8 (amended): failures of the USA, Europe, and China loaders show a
notification, leave the affected collection empty, and throw nothing; a
world-load failure shows no notification and rethrows, but the
initialization routine catches it, so no error ever escapes the loading
code path as a whole; and a failed load during a scope switch leaves all
previously loaded collections intact, so the application stays usable. -/
theorem load_failure_localized :
    ((loadUSAData [] none).notifs ≠ [] ∧ (loadUSAData [] none).features = some [] ∧
      (loadUSAData [] none).threw = false) ∧
    ((loadEuropeData [] none).notifs ≠ [] ∧ (loadEuropeData [] none).features = some [] ∧
      (loadEuropeData [] none).threw = false) ∧
    ((loadChinaData [] none).notifs ≠ [] ∧ (loadChinaData [] none).features = some [] ∧
      (loadChinaData [] none).threw = false) ∧
    (∀ fetched : Option (List (Option String)), (initialLoad fetched).threw = false) ∧
    ((loadWorldData none).threw = true ∧ (loadWorldData none).notifs = []) ∧
    (∀ st : AppV2State,
      (resumeUSASwitch none st).worldFeatures = st.worldFeatures ∧
      (resumeUSASwitch none st).europeFeatures = st.europeFeatures ∧
      (resumeUSASwitch none st).chinaFeatures = st.chinaFeatures) := by
  exact ⟨by decide, by decide, by decide, fun fetched => rfl, by decide,
    fun st => ⟨rfl, rfl, rfl⟩⟩

/-- C9: the resumption of a scope switch never compares the originating
scope with the currently active one, so a USA response arriving after a
further switch to Europe is committed anyway — in the interleaving
start(usa), start(europe), resume(europe), resume(usa), the final state
has the stale USA data installed as the active collection and the scope
forced back to USA, away from the user's last choice of Europe. -/
theorem stale_fetch_committed :
    ((startScopeSelection ScopeV2.usa initialV2State).isSome = true) ∧
    (let st1 := (startScopeSelection ScopeV2.usa initialV2State).getD initialV2State
     let st2 := (startScopeSelection ScopeV2.europe st1).getD st1
     let st3 := resumeEuropeSwitch
        (some [EuropeRaw.mk true true (some "Denmark") none]) st2
     let st4 := resumeUSASwitch (some [some "California"]) st3
     st3.currentScope = ScopeV2.europe ∧
     st4.currentScope = ScopeV2.usa ∧
     activeFeaturesV2 st4 = ["California"] ∧
     st4.currentScope ≠ ScopeV2.europe) := by
  decide

/-- C10: the DOM-identifier normalization is not injective — the
distinct names that differ only in a space versus a hyphen collapse to
the same identifier, so a toggle addressed by normalized name can hit
another region's elements. -/
theorem normalizeName_not_injective : ¬ Function.Injective normalizeName := by
  intro h
  have : ("New York" : String) = "New-York" := h (by decide)
  exact absurd this (by decide)

end TravelTracker
